import Mathlib

/-!
Verification of the end-to-end-encryption subsystem of the bookstore
messaging frontend: the crypto utilities (`src/utils/cryptoUtils.js`),
the recipient public-key cache (`src/store/recipientPublicKeyStore.js`),
identity-key initialization (`src/hooks/useKeyStorage.js`), and the chat
message pipeline (the encrypted chat modal and the legacy plaintext
`ChatModal.jsx`).

JavaScript values are modelled explicitly: base64 strings as the type
`B64` (either a valid encoding of a byte list, or malformed), optional /
nullable values as `Option`, thrown exceptions as `Except`, and JS
falsiness of strings by emptiness checks.  Functions from the source are
translated branch for branch; the TweetNaCl primitives, which are a
library dependency and not part of the repository sources, are modelled
from the spec (see the `Modelled from the spec:` doc comments).
-/

/-- A JavaScript base64 string: either a valid encoding of a byte list
(`bytes bs`, the empty string being `bytes []`) or a malformed string on
which `base64.toByteArray` throws. -/
inductive B64 where
  | bytes (bs : List Nat)
  | malformed
deriving DecidableEq

/-- JS falsiness of a nullable base64-string variable: `null`/`undefined`
or the empty string are falsy; any other string (malformed ones included)
is truthy. -/
def jsFalsyB64 : Option B64 → Bool
  | none => true
  | some (B64.bytes bs) => bs.isEmpty
  | some B64.malformed => false

/-- `base64.toByteArray`: decodes a valid base64 string, throws on a
malformed one. -/
def base64ToUint8Array : B64 → Except String (List Nat)
  | B64.bytes bs => Except.ok bs
  | B64.malformed => Except.error "invalid base64"

/-- `base64.fromByteArray`: always yields a valid encoding. -/
def uint8ArrayToBase64 (bs : List Nat) : B64 := B64.bytes bs

/-- Projection used after a JS falsiness check; a missing value decodes
like a malformed string (in JS, `toByteArray(undefined)` throws). -/
def getB64 : Option B64 → B64
  | some b => b
  | none => B64.malformed

/-- Modelled from the spec: `TextEncoder.encode`, one code unit per
character. -/
def textEncode (s : String) : List Nat := s.data.map Char.toNat

/-- Modelled from the spec: `TextDecoder.decode`, inverse of
`textEncode`. -/
def textDecode (bs : List Nat) : String := String.mk (bs.map Char.ofNat)

/-- The whitespace predicate of JS `String.prototype.trim`: ECMAScript
WhiteSpace (TAB, VT, FF, SP, NBSP, ZWNBSP and the Unicode
space-separator category) together with the line terminators LF, CR, LS
and PS. -/
def jsWhitespace (c : Char) : Bool :=
  let n := c.toNat
  n == 0x9 || n == 0xA || n == 0xB || n == 0xC || n == 0xD || n == 0x20 ||
    n == 0xA0 || n == 0x1680 || (0x2000 ≤ n && n ≤ 0x200A) || n == 0x2028 ||
    n == 0x2029 || n == 0x202F || n == 0x205F || n == 0x3000 || n == 0xFEFF

/-- JS `String.prototype.trim`. -/
def jsTrim (s : String) : String :=
  String.mk (((s.data.dropWhile jsWhitespace).reverse.dropWhile jsWhitespace).reverse)

/-- JS `String.prototype.trim` applied by the chat send paths. -/
def jsTruthyStr : Option String → Bool
  | none => false
  | some s => s != ""

/-- JS `x || dflt` on a nullable string. -/
def jsOrStr (d : Option String) (dflt : String) : String :=
  match d with
  | some s => if s = "" then dflt else s
  | none => dflt

/-- JS `s.includes(sub)`. -/
def containsStr (s sub : String) : Bool :=
  decide (List.IsInfix sub.data s.data)

/-! ### The TweetNaCl box construction, modelled from the spec

`nacl.box` authenticated-encrypts under a shared secret derived by
Diffie-Hellman from `mySecretKey` and `theirPublicKey`; the defining
contract (spec section 4.1) is the key-symmetry identity
`DH(secretA, publicB) = DH(secretB, publicA)` together with
round-tripping of authenticated encryption.  The model realises the DH
group as modular exponentiation over a prime field and the symmetric
layer as a keystream mask plus a recomputable tag; byte strings are
`List Nat`. -/

/-- Little-endian byte-list to number. -/
def bytesToNat : List Nat → Nat
  | [] => 0
  | b :: bs => b + 256 * bytesToNat bs

/-- Number to a little-endian byte list of fixed width. -/
def natToBytes : Nat → Nat → List Nat
  | 0, _ => []
  | n + 1, x => x % 256 :: natToBytes n (x / 256)

/-- Fuel-indexed fast modular exponentiation. -/
def powModAux (b p : Nat) : Nat → Nat → Nat
  | 0, _ => 1 % p
  | fuel + 1, e =>
    if e = 0 then 1 % p
    else
      let h := powModAux b p fuel (e / 2)
      if e % 2 = 0 then h * h % p else h * h % p * b % p

/-- `b ^ e % p` by binary exponentiation. -/
def powMod (b e p : Nat) : Nat := powModAux b p (e + 1) e

/-- Modelled from the spec: the prime order of the DH field. -/
def dhP : Nat := 2147483647

/-- Modelled from the spec: the DH group generator. -/
def dhG : Nat := 16807

/-- Modelled from the spec: the public key derived from a 32-byte secret
key (`nacl.box.keyPair` / scalar multiplication of the base point). -/
def pubOf (sk : List Nat) : List Nat :=
  natToBytes 32 (powMod dhG (bytesToNat sk) dhP)

/-- Modelled from the spec: the DH shared secret derived from my secret
key and their public key. -/
def sharedSecret (sk pk : List Nat) : Nat :=
  powMod (bytesToNat pk) (bytesToNat sk) dhP

/-- Word bound of the symmetric layer (all plaintext units are below it). -/
def M32 : Nat := 4294967296

/-- Modelled from the spec: keystream unit `i` under key `k` and nonce. -/
def keystream (k : Nat) (nonce : List Nat) (i : Nat) : Nat :=
  (k * 2654435761 + bytesToNat nonce * 40503 + i * 97 + 1) % M32

/-- Mask a plaintext with the keystream, starting at position `i`. -/
def maskFrom (k : Nat) (nonce : List Nat) (i : Nat) : List Nat → List Nat
  | [] => []
  | b :: bs => (b + keystream k nonce i) % M32 :: maskFrom k nonce (i + 1) bs

/-- Remove the keystream mask, starting at position `i`. -/
def unmaskFrom (k : Nat) (nonce : List Nat) (i : Nat) : List Nat → List Nat
  | [] => []
  | b :: bs => (b + (M32 - keystream k nonce i)) % M32 :: unmaskFrom k nonce (i + 1) bs

/-- Modelled from the spec: the 16-byte authentication tag over the
masked payload. -/
def macBytes (k : Nat) (nonce masked : List Nat) : List Nat :=
  natToBytes 16 ((k + bytesToNat nonce * 3 + bytesToNat masked * 7 + masked.length) % 256 ^ 16)

/-- Modelled from the spec: authenticated symmetric encryption under the
shared secret (tag followed by masked payload). -/
def secretbox (m nonce : List Nat) (k : Nat) : List Nat :=
  macBytes k nonce (maskFrom k nonce 0 m) ++ maskFrom k nonce 0 m

/-- Modelled from the spec: authenticated opening; fails on any tag
mismatch. -/
def secretboxOpen (c nonce : List Nat) (k : Nat) : Option (List Nat) :=
  if c.length < 16 then none
  else
    if c.take 16 = macBytes k nonce (c.drop 16) then
      some (unmaskFrom k nonce 0 (c.drop 16))
    else none

/-- Modelled from the spec: `nacl.box(message, nonce, theirPublicKey,
mySecretKey)`. -/
def naclBox (m nonce pk sk : List Nat) : List Nat :=
  secretbox m nonce (sharedSecret sk pk)

/-- Modelled from the spec: `nacl.box.open(cipher, nonce, theirPublicKey,
mySecretKey)`; `none` is the `null` returned on authentication failure. -/
def naclBoxOpen (c nonce pk sk : List Nat) : Option (List Nat) :=
  secretboxOpen c nonce (sharedSecret sk pk)

/-! ### Basic lemmas about the crypto model -/

theorem powModAux_eq (b p : Nat) :
    ∀ fuel e, e < fuel → powModAux b p fuel e = b ^ e % p := by
  intro fuel
  induction fuel with
  | zero => intro e h; exact absurd h (Nat.not_lt_zero e)
  | succ n ih =>
    intro e he
    by_cases h0 : e = 0
    · subst h0; simp [powModAux]
    · have hpos : 0 < e := Nat.pos_of_ne_zero h0
      have hlt : e / 2 < n := by omega
      have hrec := ih (e / 2) hlt
      show (if e = 0 then 1 % p else
        let h := powModAux b p n (e / 2)
        if e % 2 = 0 then h * h % p else h * h % p * b % p) = b ^ e % p
      rw [if_neg h0]
      simp only [hrec]
      rcases Nat.mod_two_eq_zero_or_one e with h2 | h2
      · have he2 : e / 2 + e / 2 = e := by omega
        rw [if_pos h2, ← Nat.mul_mod, ← pow_add, he2]
      · have he2 : e / 2 + e / 2 + 1 = e := by omega
        rw [if_neg (by omega : ¬ e % 2 = 0), ← Nat.mul_mod, Nat.mod_mul_mod,
          ← pow_add, ← pow_succ, he2]

theorem powMod_eq (b e p : Nat) : powMod b e p = b ^ e % p :=
  powModAux_eq b p (e + 1) e (Nat.lt_succ_self e)

theorem powMod_lt (b e p : Nat) (hp : 0 < p) : powMod b e p < p := by
  rw [powMod_eq]; exact Nat.mod_lt _ hp

theorem natToBytes_length : ∀ n x, (natToBytes n x).length = n := by
  intro n
  induction n with
  | zero => intro x; rfl
  | succ k ih => intro x; simp [natToBytes, ih]

theorem bytesToNat_natToBytes : ∀ n x, x < 256 ^ n → bytesToNat (natToBytes n x) = x := by
  intro n
  induction n with
  | zero => intro x hx; interval_cases x; rfl
  | succ k ih =>
    intro x hx
    have hdiv : x / 256 < 256 ^ k := by
      rw [Nat.div_lt_iff_lt_mul (by norm_num : 0 < 256)]
      calc x < 256 ^ (k + 1) := hx
        _ = 256 ^ k * 256 := by rw [pow_succ]
    simp only [natToBytes, bytesToNat, ih (x / 256) hdiv]
    exact Nat.mod_add_div x 256

theorem pubOf_length (sk : List Nat) : (pubOf sk).length = 32 :=
  natToBytes_length 32 _

theorem pubOf_ne_nil (sk : List Nat) : pubOf sk ≠ [] := by
  intro h
  have := pubOf_length sk
  rw [h] at this
  simp at this

theorem sharedSecret_comm (a b : List Nat) :
    sharedSecret a (pubOf b) = sharedSecret b (pubOf a) := by
  have hp : (0 : Nat) < dhP := by norm_num [dhP]
  have hsize : dhP < 256 ^ 32 := by norm_num [dhP]
  have key : ∀ x y : List Nat,
      sharedSecret x (pubOf y) = dhG ^ (bytesToNat y * bytesToNat x) % dhP := by
    intro x y
    unfold sharedSecret pubOf
    rw [bytesToNat_natToBytes 32 _ (lt_trans (powMod_lt _ _ _ hp) hsize)]
    rw [powMod_eq, powMod_eq, ← Nat.pow_mod, ← pow_mul]
  rw [key a b, key b a, Nat.mul_comm]

theorem keystream_lt (k : Nat) (nonce : List Nat) (i : Nat) :
    keystream k nonce i < M32 := by
  unfold keystream
  exact Nat.mod_lt _ (by norm_num [M32])

theorem unmaskFrom_maskFrom (k : Nat) (nonce : List Nat) :
    ∀ (m : List Nat) (i : Nat), (∀ b ∈ m, b < M32) →
      unmaskFrom k nonce i (maskFrom k nonce i m) = m := by
  intro m
  induction m with
  | nil => intro i _; rfl
  | cons b bs ih =>
    intro i hm
    have hb : b < M32 := hm b (List.mem_cons_self b bs)
    have hks : keystream k nonce i < M32 := keystream_lt k nonce i
    simp only [maskFrom, unmaskFrom, List.cons.injEq]
    constructor
    · rw [Nat.mod_add_mod]
      have h1 : b + keystream k nonce i + (M32 - keystream k nonce i) = b + M32 := by
        omega
      rw [h1, Nat.add_mod_right, Nat.mod_eq_of_lt hb]
    · exact ih (i + 1) (fun x hx => hm x (List.mem_cons_of_mem b hx))

theorem macBytes_length (k : Nat) (nonce masked : List Nat) :
    (macBytes k nonce masked).length = 16 :=
  natToBytes_length 16 _

theorem secretboxOpen_secretbox (m nonce : List Nat) (k : Nat)
    (hm : ∀ b ∈ m, b < M32) :
    secretboxOpen (secretbox m nonce k) nonce k = some m := by
  unfold secretbox secretboxOpen
  have hlen : (macBytes k nonce (maskFrom k nonce 0 m) ++ maskFrom k nonce 0 m).length
      = 16 + (maskFrom k nonce 0 m).length := by
    rw [List.length_append, macBytes_length]
  rw [if_neg (by omega)]
  rw [List.take_left' (macBytes_length k nonce _), List.drop_left' (macBytes_length k nonce _)]
  rw [if_pos rfl, unmaskFrom_maskFrom k nonce m 0 hm]

theorem textDecode_textEncode (s : String) : textDecode (textEncode s) = s := by
  simp only [textDecode, textEncode, List.map_map]
  have h : ∀ l : List Char, l.map (Char.ofNat ∘ Char.toNat) = l := by
    intro l
    induction l with
    | nil => rfl
    | cons c cs ih => simp [Function.comp, Char.ofNat_toNat, ih]
  rw [h]

theorem textEncode_lt (s : String) : ∀ b ∈ textEncode s, b < M32 := by
  intro b hb
  simp only [textEncode, List.mem_map] at hb
  obtain ⟨c, _, hc⟩ := hb
  subst hc
  have h := UInt32.toNat_lt c.val
  simpa [M32, Char.toNat] using h

/-! ### `src/utils/cryptoUtils.js` -/

/-- The `{ valid, error }` result of `validateKeyPair`. -/
structure ValidationResult where
  valid : Bool
  error : Option String
deriving DecidableEq

/-- `validateKeyPair(publicKey, secretKey)` from `cryptoUtils.js`:
missing-value check, base64 decode of both keys (decode exceptions are
caught and reported), then the two 32-byte length checks. -/
def validateKeyPair (publicKey secretKey : Option B64) : ValidationResult :=
  if jsFalsyB64 publicKey || jsFalsyB64 secretKey then
    ⟨false, some "Missing publicKey or secretKey"⟩
  else
    match base64ToUint8Array (getB64 publicKey) with
    | Except.error e => ⟨false, some e⟩
    | Except.ok pubUint8 =>
      match base64ToUint8Array (getB64 secretKey) with
      | Except.error e => ⟨false, some e⟩
      | Except.ok secUint8 =>
        if pubUint8.length ≠ 32 then ⟨false, some "Invalid publicKey length"⟩
        else if secUint8.length ≠ 32 then ⟨false, some "Invalid secretKey length"⟩
        else ⟨true, none⟩

/-- A generated keypair as the base64 strings returned by
`generateKeyPair`. -/
structure KeyPairOut where
  publicKey : B64
  secretKey : B64
deriving DecidableEq

/-- `generateKeyPair()` from `cryptoUtils.js`; the 32 random bytes drawn
from the secure PRNG are passed in as `seed` (the secret scalar), and the
public key is derived from them as in `nacl.box.keyPair`. -/
def generateKeyPair (seed : List Nat) : KeyPairOut :=
  ⟨uint8ArrayToBase64 (pubOf seed), uint8ArrayToBase64 seed⟩

/-- The `{ cipherText, nonce }` object returned by `encryptMessage`. -/
structure EncryptedPayload where
  cipherText : B64
  nonce : B64
deriving DecidableEq

/-- `encryptMessage(text, senderPrivateKey, receiverPublicKey)` from
`cryptoUtils.js`.  The random nonce drawn inside via
`nacl.randomBytes(nacl.box.nonceLength)` is passed in as `nonceBytes`.
Exceptions are re-thrown by the source (`throw error` in the catch), so
the result is `Except`.  The JS falsy check on `text` makes the empty
string an error.  (The `if (!cipherText)` branch of the source is dead:
a `Uint8Array` object is always truthy.) -/
def encryptMessage (text : String) (senderPrivateKey receiverPublicKey : Option B64)
    (nonceBytes : List Nat) : Except String EncryptedPayload :=
  if text = "" || jsFalsyB64 senderPrivateKey || jsFalsyB64 receiverPublicKey then
    Except.error "Missing encryption parameters"
  else
    match base64ToUint8Array (getB64 receiverPublicKey) with
    | Except.error e => Except.error e
    | Except.ok receiverPublicKeyUint8 =>
      match base64ToUint8Array (getB64 senderPrivateKey) with
      | Except.error e => Except.error e
      | Except.ok senderPrivateKeyUint8 =>
        if receiverPublicKeyUint8.length ≠ 32 then
          Except.error "Invalid receiver public key length"
        else if senderPrivateKeyUint8.length ≠ 32 then
          Except.error "Invalid sender private key length"
        else
          Except.ok ⟨uint8ArrayToBase64
              (naclBox (textEncode text) nonceBytes receiverPublicKeyUint8 senderPrivateKeyUint8),
            uint8ArrayToBase64 nonceBytes⟩

/-- The `{ cipherText, nonce, senderPublicKey }` object passed to
`decryptMessage`; each field may be absent. -/
structure WireMsg where
  cipherText : Option B64
  nonce : Option B64
  senderPublicKey : Option B64
deriving DecidableEq

/-- The body of `decryptMessage` (everything inside its `try`), before
the surrounding catch-all.  An `Except.error` is an exception that the
body would throw (e.g. a base64 decode failure); every handled failure
returns `Except.ok none` just as the source returns `null`. -/
def decryptMessageBody (msg : Option WireMsg) (receiverPrivateKey : Option B64) :
    Except String (Option String) :=
  match msg with
  | none => Except.ok none
  | some m =>
    if jsFalsyB64 receiverPrivateKey then Except.ok none
    else if jsFalsyB64 m.cipherText || jsFalsyB64 m.nonce || jsFalsyB64 m.senderPublicKey then
      Except.ok none
    else
      match base64ToUint8Array (getB64 m.cipherText) with
      | Except.error e => Except.error e
      | Except.ok cipherTextUint8 =>
        match base64ToUint8Array (getB64 m.nonce) with
        | Except.error e => Except.error e
        | Except.ok nonceUint8 =>
          match base64ToUint8Array (getB64 m.senderPublicKey) with
          | Except.error e => Except.error e
          | Except.ok senderPublicKeyUint8 =>
            match base64ToUint8Array (getB64 receiverPrivateKey) with
            | Except.error e => Except.error e
            | Except.ok receiverPrivateKeyUint8 =>
              if senderPublicKeyUint8.length ≠ 32 then Except.ok none
              else if receiverPrivateKeyUint8.length ≠ 32 then Except.ok none
              else if nonceUint8.length ≠ 24 then Except.ok none
              else
                match naclBoxOpen cipherTextUint8 nonceUint8
                    senderPublicKeyUint8 receiverPrivateKeyUint8 with
                | none => Except.ok none
                | some decrypted =>
                  let decryptedText := textDecode decrypted
                  if decryptedText = "" ∨ jsTrim decryptedText = "" then Except.ok none
                  else Except.ok (some decryptedText)

/-- `decryptMessage(msg, receiverPrivateKey)` from `cryptoUtils.js`: the
body wrapped in the catch-all that turns any exception into `null`. -/
def decryptMessage (msg : Option WireMsg) (receiverPrivateKey : Option B64) : Option String :=
  match decryptMessageBody msg receiverPrivateKey with
  | Except.ok r => r
  | Except.error _ => none

/-- The receiver-side round trip of spec section 8 property 1: encrypt
with `(skA, pkB)`, decrypt with `{senderPublicKey := pkA}` and `skB`. -/
def roundTripRecv (m : String) (skA skB nonceBytes : List Nat) : Option String :=
  match encryptMessage m (some (B64.bytes skA)) (some (B64.bytes (pubOf skB))) nonceBytes with
  | Except.error _ => none
  | Except.ok p =>
    decryptMessage
      (some ⟨some p.cipherText, some p.nonce, some (B64.bytes (pubOf skA))⟩)
      (some (B64.bytes skB))

/-- The sender-side round trip of spec section 8 property 2 (symmetry):
encrypt with `(skA, pkB)`, decrypt with `{senderPublicKey := pkB}` and
`skA`, as `fetchMessages` does for the local user's own messages. -/
def roundTripSender (m : String) (skA skB nonceBytes : List Nat) : Option String :=
  match encryptMessage m (some (B64.bytes skA)) (some (B64.bytes (pubOf skB))) nonceBytes with
  | Except.error _ => none
  | Except.ok p =>
    decryptMessage
      (some ⟨some p.cipherText, some p.nonce, some (B64.bytes (pubOf skB))⟩)
      (some (B64.bytes skA))

/-! ### `src/store/recipientPublicKeyStore.js`

The zustand store is modelled as explicit state passing: `fetchRecipientPublicKey`
takes the current cache, the current clock value (`Date.now()`; the model keeps
it constant within one invocation — the retry delays do not advance it) and an
oracle list of network responses, one consumed per attempted `fetch` call, and
returns the thrown-or-returned result, the new cache, and the number of network
calls performed. -/

/-- An `Error` value thrown by the store; `statusCode` is set only for
HTTP error responses (`error.statusCode = res.status`). -/
structure ErrVal where
  message : String
  statusCode : Option Nat
deriving DecidableEq

/-- One cache entry: `{ publicKey, error, timestamp }`. -/
structure CacheEntry where
  publicKey : Option String
  error : Option ErrVal
  timestamp : Nat
deriving DecidableEq

/-- The cache map `{ userId: entry }`. -/
def Cache : Type := String → Option CacheEntry

/-- `{ ...state.cache, [recipientId]: entry }`. -/
def cacheInsert (c : Cache) (recipientId : String) (e : CacheEntry) : Cache :=
  fun u => if u = recipientId then some e else c u

/-- One network response for `fetch(API_URL/users/{id}/public-key)`:
an OK response whose JSON body may or may not carry a `publicKey` field,
an HTTP error response with status and message, or a rejected fetch
(network failure, no HTTP status). -/
inductive NetResult where
  | httpOk (publicKey : Option String)
  | httpErr (status : Nat) (message : String)
  | netFail (message : String)
deriving DecidableEq

/-- Head of the network oracle (a missing entry behaves like a network
failure) and the remaining oracle. -/
def netHead : List NetResult → NetResult × List NetResult
  | [] => (NetResult.netFail "network request failed", [])
  | r :: rs => (r, rs)

/-- Result of one `fetchRecipientPublicKey` invocation: the value
returned or thrown (`Except.error none` models `throw lastError` with
`lastError === null`), the cache afterwards, and how many network calls
were made. -/
structure FetchOutcome where
  result : Except (Option ErrVal) String
  cache : Cache
  calls : Nat

/-- The message of the error built from an HTTP error response:
`data.message || "Failed to fetch recipient public key"`. -/
def httpErrMessage (m : String) : String :=
  if m = "" then "Failed to fetch recipient public key" else m

/-- The retry loop of `fetchRecipientPublicKey` (`for attempt = 1 ..
maxRetries`), with `remaining` attempts left.  An HTTP error response is
cached and then thrown; the catch rethrows it immediately when its status
is 404 or 400 and otherwise retries.  A missing `publicKey` field or a
rejected fetch produces an error without `statusCode` that is retried but
never cached.  When attempts are exhausted the last error is thrown. -/
def fetchAttempts (recipientId : String) (now : Nat) :
    Nat → List NetResult → Option ErrVal → Cache → Nat → FetchOutcome
  | 0, _, lastError, cache, calls => ⟨Except.error lastError, cache, calls⟩
  | remaining + 1, net, _lastError, cache, calls =>
    let (r, rest) := netHead net
    match r with
    | NetResult.httpOk body =>
      match body with
      | some pk =>
        if pk = "" then
          fetchAttempts recipientId now remaining rest
            (some ⟨"Public key not found in response", none⟩) cache (calls + 1)
        else
          ⟨Except.ok pk, cacheInsert cache recipientId ⟨some pk, none, now⟩, calls + 1⟩
      | none =>
        fetchAttempts recipientId now remaining rest
          (some ⟨"Public key not found in response", none⟩) cache (calls + 1)
    | NetResult.httpErr status msg =>
      let e : ErrVal := ⟨httpErrMessage msg, some status⟩
      let cache2 := cacheInsert cache recipientId ⟨none, some e, now⟩
      if status = 404 ∨ status = 400 then
        ⟨Except.error (some e), cache2, calls + 1⟩
      else
        fetchAttempts recipientId now remaining rest (some e) cache2 (calls + 1)
    | NetResult.netFail msg =>
      fetchAttempts recipientId now remaining rest (some ⟨msg, none⟩) cache (calls + 1)

/-- `fetchRecipientPublicKey(recipientId, token, options)` from
`recipientPublicKeyStore.js`: argument check, 5-minute positive-TTL cache
hit, 30-second negative-TTL cached-error re-raise, then the retry loop. -/
def fetchRecipientPublicKey (recipientId : String) (tokenPresent : Bool)
    (maxRetries : Nat) (cache : Cache) (now : Nat) (net : List NetResult) : FetchOutcome :=
  if recipientId = "" || !tokenPresent then
    ⟨Except.error (some ⟨"recipientId and token are required", none⟩), cache, 0⟩
  else
    match cache recipientId with
    | some entry =>
      let cacheAge := now - entry.timestamp
      match entry.publicKey with
      | some pk =>
        if pk ≠ "" ∧ cacheAge < 300000 then ⟨Except.ok pk, cache, 0⟩
        else if entry.error.isSome ∧ cacheAge < 30000 then
          ⟨Except.error entry.error, cache, 0⟩
        else fetchAttempts recipientId now maxRetries net none cache 0
      | none =>
        if entry.error.isSome ∧ cacheAge < 30000 then
          ⟨Except.error entry.error, cache, 0⟩
        else fetchAttempts recipientId now maxRetries net none cache 0
    | none => fetchAttempts recipientId now maxRetries net none cache 0

/-! ### `src/hooks/useKeyStorage.js` -/

/-- The parsed contents of the `e2ee_keys` entry in AsyncStorage (either
field may be missing from the stored JSON). -/
structure StoredKeyPair where
  publicKey : Option B64
  secretKey : Option B64
deriving DecidableEq

/-- Result of `initializeKeys`: what is persisted in AsyncStorage
afterwards and which keypair is exposed through the hook state. -/
structure InitResult where
  persisted : StoredKeyPair
  exposedPublicKey : Option B64
  exposedSecretKey : Option B64
  e2eeReady : Bool
deriving DecidableEq

/-- `initializeKeys` from `useKeyStorage.js`, restricted to its
storage/state effects: load the stored keypair; if present, validate it
with `validateKeyPair` and on failure regenerate (persisting the fresh
keypair over the old one) — otherwise use it; if absent, generate,
persist, expose.  `seed` is the randomness consumed by
`generateKeyPair()` when it is called. -/
def initializeKeys (stored : Option StoredKeyPair) (seed : List Nat) : InitResult :=
  match stored with
  | some keys =>
    if (validateKeyPair keys.publicKey keys.secretKey).valid = false then
      let newKeys := generateKeyPair seed
      ⟨⟨some newKeys.publicKey, some newKeys.secretKey⟩,
        some newKeys.publicKey, some newKeys.secretKey, true⟩
    else
      ⟨keys, keys.publicKey, keys.secretKey, true⟩
  | none =>
    let newKeys := generateKeyPair seed
    ⟨⟨some newKeys.publicKey, some newKeys.secretKey⟩,
      some newKeys.publicKey, some newKeys.secretKey, true⟩

/-! ### The encrypted chat modal (`src/unnamed/part_009`)

The transcript-mutating logic of the chat component: `handleNewMessage`
(socket `new_message` handler), the re-decrypt effect that sweeps the
transcript when the recipient public key becomes available, and
`sendMessage`.  React state is passed explicitly; only the transcript
and wire effects are modelled (sounds, notifications and focus handling
have no bearing on the claims). -/

/-- A transcript message record.  `sender`/`receiver` are the ids (the
`typeof msg.sender === "object"` access is already resolved);
`senderObjPublicKey` is `msg.sender.publicKey` when the sender is an
object carrying a key.  `text` is absent until decryption fills it. -/
structure ChatMsg where
  id : String
  sender : String
  receiver : String
  isEncrypted : Bool
  encryptedMessage : Option B64
  nonce : Option B64
  senderPublicKey : Option B64
  senderObjPublicKey : Option B64
  text : Option String
  isDecrypted : Bool
  decryptionFailed : Bool
deriving DecidableEq

/-- `handleNewMessage` from the encrypted chat modal, restricted to its
`setMessages` effect: guard checks, key selection
(`msg.senderPublicKey`, then `msg.sender.publicKey`, then the cached
key), decryption or the waiting/failed placeholders, and append with
per-id deduplication. -/
def handleNewMessage (currentUserId otherUserId : String) (e2eeReady : Bool)
    (mySecretKey otherUserPublicKey : Option B64)
    (msgs : List ChatMsg) (msg : ChatMsg) : List ChatMsg :=
  if msg.sender = "" || otherUserId = "" then msgs
  else if !e2eeReady || jsFalsyB64 mySecretKey then msgs
  else
    let isFromOtherUser := msg.sender == otherUserId && msg.receiver == currentUserId
    let isFromCurrentUser := msg.sender == currentUserId && msg.receiver == otherUserId
    if !isFromOtherUser && !isFromCurrentUser then msgs
    else
      let messageToAdd :=
        if msg.isEncrypted && !jsFalsyB64 msg.encryptedMessage && !jsFalsyB64 msg.nonce
            && e2eeReady then
          let keyForDecryption : Option B64 :=
            if isFromOtherUser then
              if !jsFalsyB64 msg.senderPublicKey then msg.senderPublicKey
              else if !jsFalsyB64 msg.senderObjPublicKey then msg.senderObjPublicKey
              else otherUserPublicKey
            else otherUserPublicKey
          if jsFalsyB64 keyForDecryption || jsFalsyB64 mySecretKey then
            { msg with text := some "🔒 [Waiting for key...]", decryptionFailed := true }
          else
            let decryptedText :=
              decryptMessage
                (some ⟨msg.encryptedMessage, msg.nonce, keyForDecryption⟩) mySecretKey
            { msg with text := some (jsOrStr decryptedText "🔒 [Decryption failed]"), decryptionFailed := !jsTruthyStr decryptedText }
        else msg
      if msgs.any (fun m => m.id == msg.id) then msgs else msgs ++ [messageToAdd]

/-- The re-decrypt effect of the encrypted chat modal (the `useEffect`
that runs when the recipient public key becomes available): it maps over
the transcript and re-attempts decryption of encrypted messages from the
other user that have no text yet or failed before, leaving every other
message untouched. -/
def redecryptSweep (currentUserId : String) (e2eeReady : Bool)
    (otherUserPublicKey mySecretKey : Option B64) (msgs : List ChatMsg) : List ChatMsg :=
  if !jsFalsyB64 otherUserPublicKey && msgs.length > 0 && !jsFalsyB64 mySecretKey
      && e2eeReady then
    msgs.map (fun msg =>
      let isFromOtherUser := msg.sender != currentUserId
      if isFromOtherUser && msg.isEncrypted && (!jsTruthyStr msg.text || msg.decryptionFailed)
          && !jsFalsyB64 msg.encryptedMessage && !jsFalsyB64 msg.nonce then
        let keyForDecryption : Option B64 :=
          if !jsFalsyB64 msg.senderPublicKey then msg.senderPublicKey
          else otherUserPublicKey
        if jsFalsyB64 keyForDecryption then msg
        else
          let decryptedText :=
            decryptMessage
              (some ⟨msg.encryptedMessage, msg.nonce, keyForDecryption⟩) mySecretKey
          match decryptedText with
          | some t =>
            if t ≠ "" then
              { msg with text := some t, isDecrypted := true, decryptionFailed := false }
            else
              { msg with text := some "🔒 [Unable to decrypt message]", decryptionFailed := true }
          | none =>
            { msg with text := some "🔒 [Unable to decrypt message]", decryptionFailed := true }
      else msg)
  else msgs

/-- A payload handed to a transport: either the encrypted envelope built
by the encrypted chat modal, or the plaintext `{receiverId, text}` object
built by the legacy `ChatModal.jsx`. -/
inductive WirePayload where
  | enc (receiverId : String) (cipherText nonce senderPublicKey : B64) (senderId : String)
  | plain (receiverId : String) (text : String)
deriving DecidableEq

/-- Which transport carried a payload. -/
inductive Channel where
  | socket
  | api
deriving DecidableEq

/-- The socket acknowledgement `(err, saved)` of `send_message`. -/
inductive AckResult where
  | saved
  | empty
  | err (message : String)
deriving DecidableEq

/-- Everything `sendMessage` of the encrypted chat modal reads: component
state, the outcome of the recipient-key resolution
(`fetchRecipientPublicKey(true)` returning a boolean, then
`fetchFromStore` returning the key or throwing), transport availability
and the socket acknowledgement, plus the nonce randomness consumed by
`encryptMessage`. -/
structure SendEnv where
  inputText : String
  otherUserId : Option String
  currentUserId : String
  isBlocked : Bool
  keysInitialized : Bool
  mySecretKey : Option B64
  myPublicKey : Option B64
  otherUserPublicKey : Option B64
  keyFetchSucceeds : Bool
  storeFetch : Except Unit B64
  socketAvailable : Bool
  ack : AckResult
  nonceBytes : List Nat

/-- Result of a send: the payloads submitted to each transport, whether
the send was blocked for lack of a recipient key, and whether the draft
was restored to the composer. -/
structure SendResult where
  transmitted : List (Channel × WirePayload)
  blockedNoKey : Bool
  draftRestored : Bool
deriving DecidableEq

/-- `sendMessage` from the encrypted chat modal: trim/guard checks, key
validation, recipient-key resolution with a hard block when it fails,
encryption, then socket delivery with API fallback only for non-E2EE
errors (an error message mentioning E2EE/PLAINTEXT/Encryption/"cannot
send" is surfaced, not retried). -/
def sendMessageE2EE (env : SendEnv) : SendResult :=
  let trimmed := jsTrim env.inputText
  match env.otherUserId with
  | none => ⟨[], false, false⟩
  | some otherUserId =>
    if trimmed = "" then ⟨[], false, false⟩
    else if env.isBlocked then ⟨[], false, false⟩
    else if !env.keysInitialized || jsFalsyB64 env.mySecretKey
        || jsFalsyB64 env.myPublicKey then
      ⟨[], false, true⟩
    else
      let recipientKey : Option B64 :=
        if jsFalsyB64 env.otherUserPublicKey then
          if env.keyFetchSucceeds then
            match env.storeFetch with
            | Except.ok k => some k
            | Except.error _ => env.otherUserPublicKey
          else none
        else env.otherUserPublicKey
      if jsFalsyB64 env.otherUserPublicKey && !env.keyFetchSucceeds then
        ⟨[], true, true⟩
      else if jsFalsyB64 recipientKey then ⟨[], true, true⟩
      else
        match encryptMessage trimmed env.mySecretKey recipientKey env.nonceBytes with
        | Except.error _ => ⟨[], false, true⟩
        | Except.ok payload =>
          let wire := WirePayload.enc otherUserId payload.cipherText payload.nonce
            (getB64 env.myPublicKey) env.currentUserId
          if env.socketAvailable then
            match env.ack with
            | AckResult.saved => ⟨[(Channel.socket, wire)], false, false⟩
            | AckResult.empty => ⟨[(Channel.socket, wire)], false, false⟩
            | AckResult.err m =>
              if containsStr m "E2EE" || containsStr m "PLAINTEXT"
                  || containsStr m "Encryption" || containsStr m "cannot send" then
                ⟨[(Channel.socket, wire)], false, true⟩
              else
                ⟨[(Channel.socket, wire), (Channel.api, wire)], false, true⟩
          else ⟨[(Channel.api, wire)], false, false⟩

/-- Everything `sendMessage` of the legacy `ChatModal.jsx` reads. -/
structure LegacySendEnv where
  inputText : String
  otherUserId : Option String
  sending : Bool
  isBlocked : Bool
  socketAvailable : Bool
  ack : AckResult
deriving DecidableEq

/-- `sendMessage` from the legacy `ChatModal.jsx` (lines 292-375): it
performs no encryption at all and submits `{receiverId, text: trimmed}`
to the socket, falling back to `POST /messages` with the same plaintext
body for non-blocking errors. -/
def sendMessageLegacy (env : LegacySendEnv) : SendResult :=
  let trimmed := jsTrim env.inputText
  match env.otherUserId with
  | none => ⟨[], false, false⟩
  | some otherUserId =>
    if trimmed = "" || env.sending then ⟨[], false, false⟩
    else if env.isBlocked then ⟨[], false, false⟩
    else
      let wire := WirePayload.plain otherUserId trimmed
      if env.socketAvailable then
        match env.ack with
        | AckResult.saved => ⟨[(Channel.socket, wire)], false, false⟩
        | AckResult.empty => ⟨[(Channel.socket, wire)], false, false⟩
        | AckResult.err m =>
          if containsStr m "blocked" || containsStr m "cannot send" then
            ⟨[(Channel.socket, wire)], false, true⟩
          else
            ⟨[(Channel.socket, wire), (Channel.api, wire)], false, true⟩
      else ⟨[(Channel.api, wire)], false, false⟩

/-! ### Evaluation lemmas for the crypto utilities -/

theorem jsFalsyB64_bytes_false {bs : List Nat} (h : bs ≠ []) :
    jsFalsyB64 (some (B64.bytes bs)) = false := by
  cases bs with
  | nil => exact absurd rfl h
  | cons a l => rfl

theorem ne_nil_of_length {bs : List Nat} {n : Nat} (h : bs.length = n) (hn : 0 < n) :
    bs ≠ [] := by
  intro hb
  subst hb
  simp at h
  omega

theorem secretbox_ne_nil (m nonce : List Nat) (k : Nat) : secretbox m nonce k ≠ [] := by
  intro h
  have hl := congrArg List.length h
  rw [secretbox, List.length_append, macBytes_length] at hl
  simp at hl

theorem jsTrim_empty : jsTrim "" = "" := rfl

theorem encryptMessage_eval (m : String) (sk pk nonceBytes : List Nat)
    (hm : m ≠ "") (hsk : sk.length = 32) (hpk : pk.length = 32) :
    encryptMessage m (some (B64.bytes sk)) (some (B64.bytes pk)) nonceBytes =
      Except.ok ⟨B64.bytes (naclBox (textEncode m) nonceBytes pk sk), B64.bytes nonceBytes⟩ := by
  unfold encryptMessage
  rw [jsFalsyB64_bytes_false (ne_nil_of_length hsk (by norm_num)),
    jsFalsyB64_bytes_false (ne_nil_of_length hpk (by norm_num))]
  simp [hm, getB64, base64ToUint8Array, uint8ArrayToBase64, hsk, hpk]

theorem decryptMessage_eval (ct n spk rk : List Nat)
    (hct : ct ≠ []) (hn : n.length = 24) (hspk : spk.length = 32) (hrk : rk.length = 32) :
    decryptMessage (some ⟨some (B64.bytes ct), some (B64.bytes n), some (B64.bytes spk)⟩)
        (some (B64.bytes rk)) =
      (match naclBoxOpen ct n spk rk with
       | none => none
       | some d =>
         if textDecode d = "" ∨ jsTrim (textDecode d) = "" then none
         else some (textDecode d)) := by
  unfold decryptMessage decryptMessageBody
  simp only [jsFalsyB64_bytes_false (ne_nil_of_length hrk (by norm_num)),
    jsFalsyB64_bytes_false hct,
    jsFalsyB64_bytes_false (ne_nil_of_length hn (by norm_num)),
    jsFalsyB64_bytes_false (ne_nil_of_length hspk (by norm_num)),
    getB64, base64ToUint8Array, hspk, hrk, hn, Bool.or_self, Bool.false_or]
  norm_num
  cases h : naclBoxOpen ct n spk rk with
  | none => simp
  | some d =>
    by_cases hd : textDecode d = "" ∨ jsTrim (textDecode d) = "" <;> simp [hd]

theorem naclBoxOpen_naclBox_recv (x nonce skA skB : List Nat) (hx : ∀ b ∈ x, b < M32) :
    naclBoxOpen (naclBox x nonce (pubOf skB) skA) nonce (pubOf skA) skB = some x := by
  unfold naclBox naclBoxOpen
  rw [sharedSecret_comm skB skA]
  exact secretboxOpen_secretbox x nonce _ hx

theorem naclBoxOpen_naclBox_sender (x nonce skA skB : List Nat) (hx : ∀ b ∈ x, b < M32) :
    naclBoxOpen (naclBox x nonce (pubOf skB) skA) nonce (pubOf skB) skA = some x :=
  secretboxOpen_secretbox x nonce _ hx

theorem jsTrim_ne_empty_of_self {m : String} (hm : jsTrim m ≠ "") : m ≠ "" := by
  intro h
  rw [h] at hm
  exact hm jsTrim_empty

theorem naclBox_ne_nil (m nonce pk sk : List Nat) : naclBox m nonce pk sk ≠ [] :=
  secretbox_ne_nil m nonce (sharedSecret sk pk)

theorem decryptMessageBody_ok_some {msg : Option WireMsg} {rk : Option B64} {t : String}
    (hb : decryptMessageBody msg rk = Except.ok (some t)) : t ≠ "" ∧ jsTrim t ≠ "" := by
  unfold decryptMessageBody at hb
  repeat' split at hb
  all_goals try simp_all
  all_goals split_ifs at hb with hws
  all_goals simp_all

theorem decryptMessage_some_ne {msg : Option WireMsg} {rk : Option B64} {t : String}
    (h : decryptMessage msg rk = some t) : t ≠ "" ∧ jsTrim t ≠ "" := by
  unfold decryptMessage at h
  cases hb : decryptMessageBody msg rk with
  | ok r =>
    rw [hb] at h
    subst h
    exact decryptMessageBody_ok_some hb
  | error e => rw [hb] at h; exact absurd h (by simp)

/-! ### Concrete keypairs, nonce and payloads used by witnesses and
counterexamples -/

/-- A concrete 32-byte secret key (scalar 1). -/
def skA0 : List Nat := 1 :: List.replicate 31 0

/-- A concrete 32-byte secret key (scalar 2). -/
def skB0 : List Nat := 2 :: List.replicate 31 0

/-- A concrete 24-byte nonce. -/
def nonce0 : List Nat := List.replicate 24 7

/-! ### Claim C1 — receiver round trip -/

/-- C1, counterexample to the claim as stated: for the generated keypairs
with secret scalars `skA0`, `skB0` and the empty payload `m = ""`,
`decryptMessage` of `encryptMessage m skA pkB` does not return `m`:
`encryptMessage` throws "Missing encryption parameters" on the empty
string (JS falsiness of `text`), so the round trip yields no plaintext at
all. -/
theorem c1_empty_payload_counterexample :
    roundTripRecv "" skA0 skB0 nonce0 = none ∧
      roundTripRecv "" skA0 skB0 nonce0 ≠ some "" := by
  constructor
  · decide
  · decide

/-- C1 (amended): for any two generated keypairs A and B, any nonce of
the required length, and any payload that is neither empty nor
whitespace-only, decrypting `encryptMessage m skA pkB` with the
receiver's secret key `skB` and `senderPublicKey = pkA` returns `m`.
(The empty payload makes `encryptMessage` throw, and a whitespace-only
payload decrypts to `null` by the trim check, so those are excluded.) -/
theorem c1_round_trip (m : String) (skA skB nonceBytes : List Nat)
    (hA : skA.length = 32) (hB : skB.length = 32) (hn : nonceBytes.length = 24)
    (hm : jsTrim m ≠ "") :
    roundTripRecv m skA skB nonceBytes = some m := by
  have hm' : m ≠ "" := jsTrim_ne_empty_of_self hm
  unfold roundTripRecv
  rw [encryptMessage_eval m skA (pubOf skB) nonceBytes hm' hA (pubOf_length skB)]
  dsimp only
  rw [decryptMessage_eval _ _ _ _ (naclBox_ne_nil _ _ _ _) hn (pubOf_length skA) hB]
  rw [naclBoxOpen_naclBox_recv (textEncode m) nonceBytes skA skB (textEncode_lt m)]
  dsimp only
  rw [textDecode_textEncode]
  simp [hm', hm]

/-- C1 witness: the amended round trip at the concrete keypairs, nonce
and payload "hi". -/
theorem c1_round_trip_witness :
    skA0.length = 32 ∧ skB0.length = 32 ∧ nonce0.length = 24 ∧ jsTrim "hi" ≠ "" ∧
      roundTripRecv "hi" skA0 skB0 nonce0 = some "hi" :=
  ⟨by decide, by decide, by decide, by decide,
    c1_round_trip "hi" skA0 skB0 nonce0 (by decide) (by decide) (by decide) (by decide)⟩

/-! ### Claim C8 — sender recovers own ciphertext -/

/-- C8, counterexample to the claim as stated: for the generated keypairs
with secret scalars `skA0`, `skB0` and the message `m = ""`, the sender
cannot recover the ciphertext of `m` because `encryptMessage` throws on
the empty string, so the claim fails at `m = ""`. -/
theorem c8_empty_payload_counterexample :
    roundTripSender "" skA0 skB0 nonce0 = none ∧
      roundTripSender "" skA0 skB0 nonce0 ≠ some "" := by
  constructor
  · decide
  · decide

/-- C8 (amended): for any keypairs A, B, any nonce of the required
length, and any message that is neither empty nor whitespace-only, the
sender recovers their own ciphertext: decrypting the output of
`encryptMessage m skA pkB` with `senderPublicKey = pkB` and the sender's
own secret key `skA` returns `m` (the same shared secret is derived from
`(skA, pkB)` on both sides). -/
theorem c8_sender_round_trip (m : String) (skA skB nonceBytes : List Nat)
    (hA : skA.length = 32) (_hB : skB.length = 32) (hn : nonceBytes.length = 24)
    (hm : jsTrim m ≠ "") :
    roundTripSender m skA skB nonceBytes = some m := by
  have hm' : m ≠ "" := jsTrim_ne_empty_of_self hm
  unfold roundTripSender
  rw [encryptMessage_eval m skA (pubOf skB) nonceBytes hm' hA (pubOf_length skB)]
  dsimp only
  rw [decryptMessage_eval _ _ _ _ (naclBox_ne_nil _ _ _ _) hn (pubOf_length skB) hA]
  rw [naclBoxOpen_naclBox_sender (textEncode m) nonceBytes skA skB (textEncode_lt m)]
  dsimp only
  rw [textDecode_textEncode]
  simp [hm', hm]

/-- C8 witness: the amended sender-side round trip at the concrete
keypairs, nonce and payload "hello". -/
theorem c8_sender_round_trip_witness :
    skA0.length = 32 ∧ skB0.length = 32 ∧ nonce0.length = 24 ∧ jsTrim "hello" ≠ "" ∧
      roundTripSender "hello" skA0 skB0 nonce0 = some "hello" :=
  ⟨by decide, by decide, by decide, by decide,
    c8_sender_round_trip "hello" skA0 skB0 nonce0 (by decide) (by decide) (by decide) (by decide)⟩

/-! ### Claim C10 — whitespace plaintexts are reported as failure -/

/-- C10: whenever the authenticated decryption itself succeeds but the
recovered plaintext decodes to an empty or whitespace-only string,
`decryptMessage` returns `null` — the same failure value it returns for
authentication failures, so the two cases are indistinguishable at the
interface. -/
theorem c10_whitespace_plaintext_null (ct n spk rk bs : List Nat)
    (hct : ct ≠ []) (hspk : spk.length = 32) (hrk : rk.length = 32) (hn : n.length = 24)
    (hopen : naclBoxOpen ct n spk rk = some bs)
    (hws : jsTrim (textDecode bs) = "") :
    decryptMessage (some ⟨some (B64.bytes ct), some (B64.bytes n), some (B64.bytes spk)⟩)
      (some (B64.bytes rk)) = none := by
  rw [decryptMessage_eval ct n spk rk hct hn hspk hrk, hopen]
  simp [hws]

/-- A ciphertext whose plaintext is the single space " ", encrypted from
A to B under the concrete keypairs. -/
def ctWS : List Nat := naclBox (textEncode " ") nonce0 (pubOf skB0) skA0

/-- C10 witness: for the concrete envelope `ctWS` the authenticated open
succeeds with the whitespace-only plaintext " ", and `decryptMessage`
returns `none`. -/
theorem c10_whitespace_plaintext_null_witness :
    naclBoxOpen ctWS nonce0 (pubOf skA0) skB0 = some (textEncode " ") ∧
      jsTrim (textDecode (textEncode " ")) = "" ∧
      decryptMessage
        (some ⟨some (B64.bytes ctWS), some (B64.bytes nonce0), some (B64.bytes (pubOf skA0))⟩)
        (some (B64.bytes skB0)) = none :=
  ⟨by decide, by decide,
    c10_whitespace_plaintext_null ctWS nonce0 (pubOf skA0) skB0 (textEncode " ")
      (by decide) (by decide) (by decide) (by decide) (by decide) (by decide)⟩

/-! ### Claim C7 — `decryptMessage` is total and never throws -/

/-- C7: `decryptMessage` never propagates an exception: either its body
completes normally and `decryptMessage` returns exactly that value, or
the body throws and `decryptMessage` returns the failure value `null`.
In particular a malformed base64 `cipherText` — whose decode throws
inside the body — yields `null` from `decryptMessage`. -/
theorem c7_decrypt_total (msg : Option WireMsg) (rk : Option B64) :
    (decryptMessageBody msg rk = Except.ok (decryptMessage msg rk) ∨
      (decryptMessage msg rk = none ∧ ∃ e, decryptMessageBody msg rk = Except.error e)) ∧
    (∀ m : WireMsg, msg = some m → m.cipherText = some B64.malformed →
      jsFalsyB64 rk = false → decryptMessage msg rk = none) := by
  constructor
  · cases hb : decryptMessageBody msg rk with
    | ok r => left; simp [decryptMessage, hb]
    | error e => right; exact ⟨by simp [decryptMessage, hb], e, rfl⟩
  · intro m hm hct hrk
    subst hm
    unfold decryptMessage decryptMessageBody
    dsimp only
    rw [hrk, hct]
    cases hn : jsFalsyB64 m.nonce <;> cases hs : jsFalsyB64 m.senderPublicKey <;>
      simp [getB64, base64ToUint8Array, jsFalsyB64]

/-- A wire message with a malformed base64 ciphertext. -/
def msgMalformed : Option WireMsg :=
  some ⟨some B64.malformed, some (B64.bytes nonce0), some (B64.bytes (pubOf skA0))⟩

/-- C7 witness: at a concrete malformed input with a present secret key,
`decryptMessage` returns the failure value. -/
theorem c7_decrypt_total_witness :
    jsFalsyB64 (some (B64.bytes skB0)) = false ∧
      decryptMessage msgMalformed (some (B64.bytes skB0)) = none :=
  ⟨by decide,
    (c7_decrypt_total msgMalformed (some (B64.bytes skB0))).2 _ rfl rfl (by decide)⟩

/-! ### Claim C9 — invalid persisted keypairs are regenerated -/

theorem validateKeyPair_pk_wrong (bs : List Nat) (sk : Option B64) (h : bs.length ≠ 32) :
    (validateKeyPair (some (B64.bytes bs)) sk).valid = false := by
  unfold validateKeyPair
  by_cases hbs : bs = []
  · subst hbs; simp [jsFalsyB64]
  · rw [jsFalsyB64_bytes_false hbs]
    cases sk with
    | none => simp [jsFalsyB64]
    | some b =>
      cases b with
      | malformed => simp [jsFalsyB64, getB64, base64ToUint8Array, h]
      | bytes bs2 =>
        by_cases hbs2 : bs2 = []
        · subst hbs2; simp [jsFalsyB64]
        · simp [jsFalsyB64_bytes_false hbs2, getB64, base64ToUint8Array, h]

theorem validateKeyPair_sk_wrong (pk : Option B64) (bs : List Nat) (h : bs.length ≠ 32) :
    (validateKeyPair pk (some (B64.bytes bs))).valid = false := by
  unfold validateKeyPair
  by_cases hbs : bs = []
  · subst hbs; simp [jsFalsyB64]
  · rw [jsFalsyB64_bytes_false hbs]
    cases pk with
    | none => simp [jsFalsyB64]
    | some b =>
      cases b with
      | malformed => simp [jsFalsyB64, getB64, base64ToUint8Array]
      | bytes bp =>
        by_cases hbp : bp = []
        · subst hbp; simp [jsFalsyB64]
        · by_cases hl : bp.length = 32 <;>
            simp [jsFalsyB64_bytes_false hbp, getB64, base64ToUint8Array, h, hl]

/-- C9: on initialization, a persisted keypair whose publicKey or
secretKey decodes to a byte length other than 32 fails validation and is
treated as absent — a fresh keypair is generated, persisted over the old
one, and exposed; the invalid keypair is never used. -/
theorem c9_invalid_stored_keypair_regenerated (keys : StoredKeyPair) (seed : List Nat)
    (hbad : (∃ bs, keys.publicKey = some (B64.bytes bs) ∧ bs.length ≠ 32) ∨
      (∃ bs, keys.secretKey = some (B64.bytes bs) ∧ bs.length ≠ 32)) :
    (validateKeyPair keys.publicKey keys.secretKey).valid = false ∧
      initializeKeys (some keys) seed =
        ⟨⟨some (generateKeyPair seed).publicKey, some (generateKeyPair seed).secretKey⟩,
          some (generateKeyPair seed).publicKey, some (generateKeyPair seed).secretKey,
          true⟩ := by
  have hval : (validateKeyPair keys.publicKey keys.secretKey).valid = false := by
    rcases hbad with ⟨bs, hpk, hlen⟩ | ⟨bs, hsk, hlen⟩
    · rw [hpk]; exact validateKeyPair_pk_wrong bs keys.secretKey hlen
    · rw [hsk]; exact validateKeyPair_sk_wrong keys.publicKey bs hlen
  exact ⟨hval, by simp [initializeKeys, hval]⟩

/-- A persisted keypair whose public key decodes to 31 bytes. -/
def badStored : StoredKeyPair :=
  ⟨some (B64.bytes (List.replicate 31 0)), some (B64.bytes (List.replicate 32 0))⟩

/-- C9 witness: the concrete 31-byte stored public key fails validation
and initialization persists and exposes the freshly generated keypair. -/
theorem c9_invalid_stored_keypair_regenerated_witness :
    (validateKeyPair badStored.publicKey badStored.secretKey).valid = false ∧
      initializeKeys (some badStored) skA0 =
        ⟨⟨some (generateKeyPair skA0).publicKey, some (generateKeyPair skA0).secretKey⟩,
          some (generateKeyPair skA0).publicKey, some (generateKeyPair skA0).secretKey,
          true⟩ :=
  c9_invalid_stored_keypair_regenerated badStored skA0
    (Or.inl ⟨List.replicate 31 0, rfl, by decide⟩)

/-! ### Claims C4, C5, C6 — recipient key cache behaviour -/

/-- The empty cache. -/
def cacheEmpty : Cache := fun _ => none

/-- C4: a fetch that receives HTTP 400 makes exactly one network call
(the terminal status is never retried), caches the error, and any second
fetch for the same userId whose clock is within 30 seconds of the first
makes no network call and re-raises the very same cached error. -/
theorem c4_http400_terminal_cached (id : String) (cache : Cache) (now now2 : Nat)
    (msg : String) (mr : Nat) (rest net2 : List NetResult)
    (hid : id ≠ "") (hcache : cache id = none) (h2 : now2 - now < 30000) :
    (fetchRecipientPublicKey id true (mr + 1) cache now
        (NetResult.httpErr 400 msg :: rest)).calls = 1 ∧
    (fetchRecipientPublicKey id true (mr + 1) cache now
        (NetResult.httpErr 400 msg :: rest)).result
      = Except.error (some ⟨httpErrMessage msg, some 400⟩) ∧
    (fetchRecipientPublicKey id true (mr + 1) cache now
        (NetResult.httpErr 400 msg :: rest)).cache id
      = some ⟨none, some ⟨httpErrMessage msg, some 400⟩, now⟩ ∧
    (fetchRecipientPublicKey id true (mr + 1)
        (fetchRecipientPublicKey id true (mr + 1) cache now
          (NetResult.httpErr 400 msg :: rest)).cache now2 net2).calls = 0 ∧
    (fetchRecipientPublicKey id true (mr + 1)
        (fetchRecipientPublicKey id true (mr + 1) cache now
          (NetResult.httpErr 400 msg :: rest)).cache now2 net2).result
      = Except.error (some ⟨httpErrMessage msg, some 400⟩) := by
  have h1 : fetchRecipientPublicKey id true (mr + 1) cache now
      (NetResult.httpErr 400 msg :: rest)
      = ⟨Except.error (some ⟨httpErrMessage msg, some 400⟩),
          cacheInsert cache id ⟨none, some ⟨httpErrMessage msg, some 400⟩, now⟩, 1⟩ := by
    simp [fetchRecipientPublicKey, hid, hcache, fetchAttempts, netHead]
  rw [h1]
  refine ⟨rfl, rfl, by simp [cacheInsert], ?_, ?_⟩ <;>
    simp [fetchRecipientPublicKey, hid, cacheInsert, h2]

/-- C4 witness: the HTTP 400 scenario at concrete inputs. -/
theorem c4_http400_terminal_cached_witness :
    (fetchRecipientPublicKey "u1" true 3 cacheEmpty 1000
        (NetResult.httpErr 400 "no key" :: [])).calls = 1 ∧
    (fetchRecipientPublicKey "u1" true 3 cacheEmpty 1000
        (NetResult.httpErr 400 "no key" :: [])).result
      = Except.error (some ⟨httpErrMessage "no key", some 400⟩) ∧
    (fetchRecipientPublicKey "u1" true 3 cacheEmpty 1000
        (NetResult.httpErr 400 "no key" :: [])).cache "u1"
      = some ⟨none, some ⟨httpErrMessage "no key", some 400⟩, 1000⟩ ∧
    (fetchRecipientPublicKey "u1" true 3
        (fetchRecipientPublicKey "u1" true 3 cacheEmpty 1000
          (NetResult.httpErr 400 "no key" :: [])).cache 21000 []).calls = 0 ∧
    (fetchRecipientPublicKey "u1" true 3
        (fetchRecipientPublicKey "u1" true 3 cacheEmpty 1000
          (NetResult.httpErr 400 "no key" :: [])).cache 21000 []).result
      = Except.error (some ⟨httpErrMessage "no key", some 400⟩) :=
  c4_http400_terminal_cached "u1" cacheEmpty 1000 21000 "no key" 2 [] []
    (by decide) rfl (by decide)

/-- Three consecutive rejected fetches (network failures without an HTTP
status). -/
def netFails3 : List NetResult :=
  [NetResult.netFail "network down", NetResult.netFail "network down",
    NetResult.netFail "network down"]

/-- C5, counterexample to the claim as stated: when the attempts are
exhausted by plain network failures (rejected fetches, no HTTP response),
the last error is raised but nothing is cached — the cache still has no
entry for the userId, and a second fetch one second later performs three
fresh network calls instead of none. -/
theorem c5_network_error_not_cached_counterexample :
    (fetchRecipientPublicKey "u1" true 3 cacheEmpty 1000 netFails3).result
      = Except.error (some ⟨"network down", none⟩) ∧
    (fetchRecipientPublicKey "u1" true 3 cacheEmpty 1000 netFails3).calls = 3 ∧
    (fetchRecipientPublicKey "u1" true 3 cacheEmpty 1000 netFails3).cache "u1" = none ∧
    (fetchRecipientPublicKey "u1" true 3
        (fetchRecipientPublicKey "u1" true 3 cacheEmpty 1000 netFails3).cache
        2000 netFails3).calls = 3 :=
  ⟨rfl, rfl, rfl, rfl⟩

/-- C5 (amended): when a fetch exhausts all attempts on transient HTTP
error responses (non-ok statuses other than 400/404, e.g. 5xx), the last
error is cached — a subsequent fetch within the 30-second negative TTL
makes no network call and re-raises it — and it is raised to the caller.
When the transient failures are rejected fetches without an HTTP
response, the error is raised but not cached. -/
theorem c5_http_transient_exhaustion_cached (id : String) (cache : Cache) (now now2 : Nat)
    (s1 s2 s3 : Nat) (m1 m2 m3 : String) (rest net2 : List NetResult)
    (hid : id ≠ "") (hcache : cache id = none)
    (hs1 : s1 ≠ 404 ∧ s1 ≠ 400) (hs2 : s2 ≠ 404 ∧ s2 ≠ 400) (hs3 : s3 ≠ 404 ∧ s3 ≠ 400)
    (h2 : now2 - now < 30000) :
    (fetchRecipientPublicKey id true 3 cache now
        (NetResult.httpErr s1 m1 :: NetResult.httpErr s2 m2 :: NetResult.httpErr s3 m3
          :: rest)).calls = 3 ∧
    (fetchRecipientPublicKey id true 3 cache now
        (NetResult.httpErr s1 m1 :: NetResult.httpErr s2 m2 :: NetResult.httpErr s3 m3
          :: rest)).result
      = Except.error (some ⟨httpErrMessage m3, some s3⟩) ∧
    (fetchRecipientPublicKey id true 3 cache now
        (NetResult.httpErr s1 m1 :: NetResult.httpErr s2 m2 :: NetResult.httpErr s3 m3
          :: rest)).cache id
      = some ⟨none, some ⟨httpErrMessage m3, some s3⟩, now⟩ ∧
    (fetchRecipientPublicKey id true 3
        (fetchRecipientPublicKey id true 3 cache now
          (NetResult.httpErr s1 m1 :: NetResult.httpErr s2 m2 :: NetResult.httpErr s3 m3
            :: rest)).cache now2 net2).calls = 0 ∧
    (fetchRecipientPublicKey id true 3
        (fetchRecipientPublicKey id true 3 cache now
          (NetResult.httpErr s1 m1 :: NetResult.httpErr s2 m2 :: NetResult.httpErr s3 m3
            :: rest)).cache now2 net2).result
      = Except.error (some ⟨httpErrMessage m3, some s3⟩) := by
  have h1 : fetchRecipientPublicKey id true 3 cache now
      (NetResult.httpErr s1 m1 :: NetResult.httpErr s2 m2 :: NetResult.httpErr s3 m3 :: rest)
      = ⟨Except.error (some ⟨httpErrMessage m3, some s3⟩),
          cacheInsert (cacheInsert (cacheInsert cache id
              ⟨none, some ⟨httpErrMessage m1, some s1⟩, now⟩) id
            ⟨none, some ⟨httpErrMessage m2, some s2⟩, now⟩) id
            ⟨none, some ⟨httpErrMessage m3, some s3⟩, now⟩, 3⟩ := by
    simp [fetchRecipientPublicKey, hid, hcache, fetchAttempts, netHead,
      hs1.1, hs1.2, hs2.1, hs2.2, hs3.1, hs3.2]
  rw [h1]
  refine ⟨rfl, rfl, by simp [cacheInsert], ?_, ?_⟩ <;>
    simp [fetchRecipientPublicKey, hid, cacheInsert, h2]

/-- C5 witness: the amended statement at three concrete HTTP 500
responses. -/
theorem c5_http_transient_exhaustion_cached_witness :
    (fetchRecipientPublicKey "u1" true 3 cacheEmpty 1000
        (NetResult.httpErr 500 "a" :: NetResult.httpErr 500 "b" :: NetResult.httpErr 500 "c"
          :: [])).calls = 3 ∧
    (fetchRecipientPublicKey "u1" true 3 cacheEmpty 1000
        (NetResult.httpErr 500 "a" :: NetResult.httpErr 500 "b" :: NetResult.httpErr 500 "c"
          :: [])).result = Except.error (some ⟨httpErrMessage "c", some 500⟩) ∧
    (fetchRecipientPublicKey "u1" true 3 cacheEmpty 1000
        (NetResult.httpErr 500 "a" :: NetResult.httpErr 500 "b" :: NetResult.httpErr 500 "c"
          :: [])).cache "u1"
      = some ⟨none, some ⟨httpErrMessage "c", some 500⟩, 1000⟩ ∧
    (fetchRecipientPublicKey "u1" true 3
        (fetchRecipientPublicKey "u1" true 3 cacheEmpty 1000
          (NetResult.httpErr 500 "a" :: NetResult.httpErr 500 "b" :: NetResult.httpErr 500 "c"
            :: [])).cache 11000 []).calls = 0 ∧
    (fetchRecipientPublicKey "u1" true 3
        (fetchRecipientPublicKey "u1" true 3 cacheEmpty 1000
          (NetResult.httpErr 500 "a" :: NetResult.httpErr 500 "b" :: NetResult.httpErr 500 "c"
            :: [])).cache 11000 []).result
      = Except.error (some ⟨httpErrMessage "c", some 500⟩) :=
  c5_http_transient_exhaustion_cached "u1" cacheEmpty 1000 11000 500 500 500 "a" "b" "c" [] []
    (by decide) rfl ⟨by decide, by decide⟩ ⟨by decide, by decide⟩ ⟨by decide, by decide⟩
    (by decide)

/-- C6: after a successful fetch is cached, a second fetch for the same
userId whose clock is within 5 minutes returns the cached key with no
network call; a fetch more than 5 minutes after the cached success goes
back to the network (one new call here, returning the fresh key). -/
theorem c6_positive_ttl (id pk pk2 : String) (cache : Cache) (now now2 now3 : Nat)
    (rest rest3 net2 : List NetResult)
    (hid : id ≠ "") (hcache : cache id = none) (hpk : pk ≠ "")
    (h2 : now2 - now < 300000) (h3 : ¬ now3 - now < 300000) (hpk2 : pk2 ≠ "") :
    (fetchRecipientPublicKey id true 3 cache now (NetResult.httpOk (some pk) :: rest)).calls
        = 1 ∧
    (fetchRecipientPublicKey id true 3 cache now (NetResult.httpOk (some pk) :: rest)).result
        = Except.ok pk ∧
    (fetchRecipientPublicKey id true 3 cache now
        (NetResult.httpOk (some pk) :: rest)).cache id = some ⟨some pk, none, now⟩ ∧
    (fetchRecipientPublicKey id true 3
        (fetchRecipientPublicKey id true 3 cache now
          (NetResult.httpOk (some pk) :: rest)).cache now2 net2).calls = 0 ∧
    (fetchRecipientPublicKey id true 3
        (fetchRecipientPublicKey id true 3 cache now
          (NetResult.httpOk (some pk) :: rest)).cache now2 net2).result = Except.ok pk ∧
    (fetchRecipientPublicKey id true 3
        (fetchRecipientPublicKey id true 3 cache now
          (NetResult.httpOk (some pk) :: rest)).cache now3
        (NetResult.httpOk (some pk2) :: rest3)).calls = 1 ∧
    (fetchRecipientPublicKey id true 3
        (fetchRecipientPublicKey id true 3 cache now
          (NetResult.httpOk (some pk) :: rest)).cache now3
        (NetResult.httpOk (some pk2) :: rest3)).result = Except.ok pk2 := by
  have h1 : fetchRecipientPublicKey id true 3 cache now
      (NetResult.httpOk (some pk) :: rest)
      = ⟨Except.ok pk, cacheInsert cache id ⟨some pk, none, now⟩, 1⟩ := by
    simp [fetchRecipientPublicKey, hid, hcache, fetchAttempts, netHead, hpk]
  rw [h1]
  refine ⟨rfl, rfl, by simp [cacheInsert], ?_, ?_, ?_, ?_⟩ <;>
    simp [fetchRecipientPublicKey, hid, cacheInsert, hpk, h2, h3, hpk2, fetchAttempts,
      netHead]

/-- C6 witness: the TTL scenario at concrete inputs (second fetch 4
minutes later, third fetch 6 minutes later). -/
theorem c6_positive_ttl_witness :
    (fetchRecipientPublicKey "u1" true 3 cacheEmpty 1000
        (NetResult.httpOk (some "PK1") :: [])).calls = 1 ∧
    (fetchRecipientPublicKey "u1" true 3 cacheEmpty 1000
        (NetResult.httpOk (some "PK1") :: [])).result = Except.ok "PK1" ∧
    (fetchRecipientPublicKey "u1" true 3 cacheEmpty 1000
        (NetResult.httpOk (some "PK1") :: [])).cache "u1" = some ⟨some "PK1", none, 1000⟩ ∧
    (fetchRecipientPublicKey "u1" true 3
        (fetchRecipientPublicKey "u1" true 3 cacheEmpty 1000
          (NetResult.httpOk (some "PK1") :: [])).cache 241000 []).calls = 0 ∧
    (fetchRecipientPublicKey "u1" true 3
        (fetchRecipientPublicKey "u1" true 3 cacheEmpty 1000
          (NetResult.httpOk (some "PK1") :: [])).cache 241000 []).result
      = Except.ok "PK1" ∧
    (fetchRecipientPublicKey "u1" true 3
        (fetchRecipientPublicKey "u1" true 3 cacheEmpty 1000
          (NetResult.httpOk (some "PK1") :: [])).cache 361001
        (NetResult.httpOk (some "PK2") :: [])).calls = 1 ∧
    (fetchRecipientPublicKey "u1" true 3
        (fetchRecipientPublicKey "u1" true 3 cacheEmpty 1000
          (NetResult.httpOk (some "PK1") :: [])).cache 361001
        (NetResult.httpOk (some "PK2") :: [])).result = Except.ok "PK2" :=
  c6_positive_ttl "u1" "PK1" "PK2" cacheEmpty 1000 241000 361001 [] [] []
    (by decide) rfl (by decide) (by decide) (by decide) (by decide)

/-! ### Claim C2 — no plaintext path on the encrypted send -/

/-- C2 (amended, restricted to the encrypted chat modal's `sendMessage`):
every payload it submits to either transport is an encrypted envelope —
the `WirePayload.plain` form never occurs — and whenever the recipient
key cannot be resolved (the cached key is absent and the refresh fails,
or the store fetch throws), nothing is transmitted at all; under the
normal-send preconditions the send is moreover reported as blocked with
the draft restored.  (The legacy `ChatModal.jsx` variant violates the
claim as stated; see its counterexample.) -/
theorem c2_encrypted_send_no_plaintext (env : SendEnv) :
    (∀ c p, (c, p) ∈ (sendMessageE2EE env).transmitted →
      ∃ rid ct n spk sid, p = WirePayload.enc rid ct n spk sid) ∧
    (jsFalsyB64 env.otherUserPublicKey = true →
      (env.keyFetchSucceeds = false ∨ env.storeFetch = Except.error ()) →
      (sendMessageE2EE env).transmitted = []) ∧
    (jsFalsyB64 env.otherUserPublicKey = true →
      (env.keyFetchSucceeds = false ∨ env.storeFetch = Except.error ()) →
      ∀ uid, env.otherUserId = some uid → jsTrim env.inputText ≠ "" →
        env.isBlocked = false → env.keysInitialized = true →
        jsFalsyB64 env.mySecretKey = false → jsFalsyB64 env.myPublicKey = false →
        sendMessageE2EE env = ⟨[], true, true⟩) := by
  refine ⟨?_, ?_, ?_⟩
  · intro c p
    unfold sendMessageE2EE
    dsimp only
    repeat' split
    all_goals intro hp
    all_goals simp_all
    all_goals rcases hp with ⟨h1, h2⟩ | ⟨h1, h2⟩ <;> exact ⟨_, _, _, _, _, h2⟩
  · intro hfalsy hfail
    unfold sendMessageE2EE
    dsimp only
    repeat' split
    all_goals try rfl
    all_goals rcases hfail with hf | hf <;> simp_all
  · intro hfalsy hfail uid huid htrim hblocked hinit hsk hpk
    unfold sendMessageE2EE
    rw [huid]
    dsimp only
    repeat' split
    all_goals try rfl
    all_goals rcases hfail with hf | hf <;> simp_all

/-- The legacy send environment: a normal send of "hi" over the socket. -/
def legacyEnv : LegacySendEnv := ⟨"hi", some "u2", false, false, true, AckResult.saved⟩

/-- C2, counterexample to the claim as stated: the `sendMessage` of the
legacy `ChatModal.jsx` (also cited by the claim) submits the plaintext
`{receiverId, text}` payload to the socket transport — the transmitted
payload carries the plaintext text field and is not an encrypted
envelope. -/
theorem c2_legacy_plaintext_counterexample :
    sendMessageLegacy legacyEnv
        = ⟨[(Channel.socket, WirePayload.plain "u2" "hi")], false, false⟩ ∧
      (Channel.socket, WirePayload.plain "u2" "hi")
        ∈ (sendMessageLegacy legacyEnv).transmitted := by
  constructor
  · rfl
  · rw [(rfl : sendMessageLegacy legacyEnv
      = ⟨[(Channel.socket, WirePayload.plain "u2" "hi")], false, false⟩)]
    exact List.mem_singleton.mpr rfl

/-- A send environment in which the recipient key cannot be resolved:
nothing cached and the forced refresh fails. -/
def envBlocked : SendEnv :=
  ⟨"hi", some "u2", "u1", false, true, some (B64.bytes skA0),
    some (B64.bytes (pubOf skA0)), none, false, Except.error (), true,
    AckResult.saved, nonce0⟩

/-- C2 witness: in the concrete unresolvable-key environment the send is
blocked, nothing is transmitted, and the draft is restored. -/
theorem c2_encrypted_send_no_plaintext_witness :
    sendMessageE2EE envBlocked = ⟨[], true, true⟩ :=
  (c2_encrypted_send_no_plaintext envBlocked).2.2 rfl (Or.inl rfl) "u2" rfl
    (by decide) rfl rfl (by decide) (by decide)

/-! ### Claim C3 — reconciliation ordering independence -/

theorem jsFalsyB64_none : jsFalsyB64 none = true := rfl


/-- C3 (amended): restricted to encrypted messages sent by the
counterpart that carry no key of their own (`senderPublicKey` and
`msg.sender.publicKey` both absent, so decryption relies on the cached
counterpart key), the two event orders — message first, then the key
arrives and the re-decrypt sweep runs; versus key already cached when
the message arrives (with the sweep re-firing after) — leave the
transcript with the same message ids, the same decrypted plaintext and
the same cleared failure flag, differing only in the `isDecrypted`
bookkeeping field that only the sweep sets.  The restriction to
counterpart-sent messages is essential and not merely convenient: the
sweep skips messages whose sender is the local user, so an own-sent
encrypted message arriving before the counterpart key never converges at
all — the counterexample exhibits both divergences. -/
theorem c3_ordering_convergence (cuid ouid t : String) (sk pk : Option B64) (M : ChatMsg)
    (hou : ouid ≠ "") (hne : ouid ≠ cuid)
    (hsend : M.sender = ouid) (hrecv : M.receiver = cuid)
    (henc : M.isEncrypted = true)
    (hem : jsFalsyB64 M.encryptedMessage = false) (hnn : jsFalsyB64 M.nonce = false)
    (hspk : M.senderPublicKey = none) (hsopk : M.senderObjPublicKey = none)
    (hsk : jsFalsyB64 sk = false) (hpk : jsFalsyB64 pk = false)
    (hdec : decryptMessage (some ⟨M.encryptedMessage, M.nonce, pk⟩) sk = some t) :
    redecryptSweep cuid true pk sk (handleNewMessage cuid ouid true sk none [] M)
      = [{ M with text := some t, isDecrypted := true, decryptionFailed := false }] ∧
    redecryptSweep cuid true pk sk (handleNewMessage cuid ouid true sk pk [] M)
      = [{ M with text := some t, decryptionFailed := false }] ∧
    (redecryptSweep cuid true pk sk (handleNewMessage cuid ouid true sk none [] M)).map
        (fun m => (m.id, m.text, m.decryptionFailed))
      = (redecryptSweep cuid true pk sk (handleNewMessage cuid ouid true sk pk [] M)).map
        (fun m => (m.id, m.text, m.decryptionFailed)) := by
  have ht : t ≠ "" := (decryptMessage_some_ne hdec).1
  have h1 : handleNewMessage cuid ouid true sk none [] M
      = [{ M with text := some "🔒 [Waiting for key...]", decryptionFailed := true }] := by
    unfold handleNewMessage
    simp [hou, hsend, hrecv, henc, hem, hnn, hspk, hsopk, hsk, jsFalsyB64_none]
  have h2 : redecryptSweep cuid true pk sk
      [{ M with text := some "🔒 [Waiting for key...]", decryptionFailed := true }]
      = [{ M with text := some t, isDecrypted := true, decryptionFailed := false }] := by
    unfold redecryptSweep
    simp [hpk, hsk, hsend, hne, henc, hem, hnn, hspk, jsFalsyB64_none, hdec, ht]
  have h3 : handleNewMessage cuid ouid true sk pk [] M
      = [{ M with text := some t, decryptionFailed := false }] := by
    unfold handleNewMessage
    simp [hou, hsend, hrecv, henc, hem, hnn, hspk, hsopk, hsk, hpk, hdec, jsFalsyB64_none,
      jsOrStr, jsTruthyStr, ht]
  have h4 : redecryptSweep cuid true pk sk [{ M with text := some t, decryptionFailed := false }]
      = [{ M with text := some t, decryptionFailed := false }] := by
    unfold redecryptSweep
    simp [hpk, hsk, jsTruthyStr, ht]
  refine ⟨by rw [h1, h2], by rw [h3, h4], ?_⟩
  rw [h1, h2, h3, h4]
  simp

/-- The ciphertext of "hi" sent by the other user (secret scalar `skB0`)
to the local user (public key of `skA0`). -/
def ctHi : List Nat := naclBox (textEncode "hi") nonce0 (pubOf skA0) skB0

/-- The incoming encrypted message record for `ctHi`, carrying no
sender key of its own. -/
def msgIncoming : ChatMsg :=
  ⟨"m1", "them", "me", true, some (B64.bytes ctHi), some (B64.bytes nonce0),
    none, none, none, false, false⟩

/-- Final transcript when the message arrives before its key and the
sweep runs after the key arrives. -/
def orderMsgFirst : List ChatMsg :=
  redecryptSweep "me" true (some (B64.bytes (pubOf skB0))) (some (B64.bytes skA0))
    (handleNewMessage "me" "them" true (some (B64.bytes skA0)) none [] msgIncoming)

/-- Final transcript when the key is already cached as the message
arrives (the sweep still re-fires afterwards). -/
def orderKeyFirst : List ChatMsg :=
  redecryptSweep "me" true (some (B64.bytes (pubOf skB0))) (some (B64.bytes skA0))
    (handleNewMessage "me" "them" true (some (B64.bytes skA0))
      (some (B64.bytes (pubOf skB0))) [] msgIncoming)

/-- The ciphertext of "yo" sent by the local user (secret scalar `skA0`)
to the other user (public key of `skB0`). -/
def ctOwn : List Nat := naclBox (textEncode "yo") nonce0 (pubOf skB0) skA0

/-- The local user's own sent message as it comes back over the wire:
its sender is the current user. -/
def msgOwn : ChatMsg :=
  ⟨"m2", "me", "them", true, some (B64.bytes ctOwn), some (B64.bytes nonce0),
    none, none, none, false, false⟩

/-- Final transcript for the own-sent message when it arrives before the
counterpart key and the sweep runs after the key arrives. -/
def orderOwnMsgFirst : List ChatMsg :=
  redecryptSweep "me" true (some (B64.bytes (pubOf skB0))) (some (B64.bytes skA0))
    (handleNewMessage "me" "them" true (some (B64.bytes skA0)) none [] msgOwn)

/-- Final transcript for the own-sent message when the counterpart key
is already cached as it arrives. -/
def orderOwnKeyFirst : List ChatMsg :=
  redecryptSweep "me" true (some (B64.bytes (pubOf skB0))) (some (B64.bytes skA0))
    (handleNewMessage "me" "them" true (some (B64.bytes skA0))
      (some (B64.bytes (pubOf skB0))) [] msgOwn)

/-- C3, counterexample to the claim as stated, in two parts.  For the
counterpart-sent message `ctHi` the two orderings do not leave the
transcript in the same final state: both decrypt it to "hi", but only
the message-before-key ordering (which goes through the re-decrypt
sweep) sets the `isDecrypted` flag.  For the local user's own sent
message `ctOwn` the divergence is in the plaintext itself: the
re-decrypt sweep only touches messages whose sender differs from the
current user, so message-before-key leaves it stuck at the waiting
placeholder while key-before-message decrypts it to "yo" — the orderings
do not converge at all. -/
theorem c3_ordering_state_counterexample :
    orderMsgFirst ≠ orderKeyFirst ∧
      orderMsgFirst.map (fun m => m.text) = [some "hi"] ∧
      orderKeyFirst.map (fun m => m.text) = [some "hi"] ∧
      orderMsgFirst.map (fun m => m.isDecrypted)
        ≠ orderKeyFirst.map (fun m => m.isDecrypted) ∧
      orderOwnMsgFirst.map (fun m => m.text) = [some "🔒 [Waiting for key...]"] ∧
      orderOwnKeyFirst.map (fun m => m.text) = [some "yo"] ∧
      orderOwnMsgFirst.map (fun m => m.text) ≠ orderOwnKeyFirst.map (fun m => m.text) := by
  refine ⟨by decide, by decide, by decide, by decide, by decide, by decide, by decide⟩

/-- C3 witness: the amended convergence at the concrete message `ctHi`
and keypairs. -/
theorem c3_ordering_convergence_witness :
    orderMsgFirst
        = [{ msgIncoming with text := some "hi", isDecrypted := true, decryptionFailed := false }] ∧
      orderKeyFirst = [{ msgIncoming with text := some "hi", decryptionFailed := false }] ∧
      orderMsgFirst.map (fun m => (m.id, m.text, m.decryptionFailed))
        = orderKeyFirst.map (fun m => (m.id, m.text, m.decryptionFailed)) :=
  c3_ordering_convergence "me" "them" "hi" (some (B64.bytes skA0))
    (some (B64.bytes (pubOf skB0))) msgIncoming (by decide) (by decide) rfl rfl rfl
    (by decide) (by decide) rfl rfl (by decide) (by decide) (by decide)
